import Mathlib

/-!
Verification of the supynote directory-synchronization engine
(src/supynote/supernote.py, class Supernote).

The Python code is embedded shallowly:

* pure decision logic (the skip policy, the branch condition of
  download_and_convert, the listing-parser control flow) is translated
  directly into Lean functions;
* the environment (network outcomes, the local filesystem, the parsed
  HTML) is an explicit oracle: each remote file carries the local state
  observed for it and the outcome its transfer would have;
* a remote directory tree is a finite inductive tree whose directory
  nodes carry the result their listing call would produce;
* an uncaught Python exception is modelled as Except.error, a normal
  boolean return as Except.ok.
-/

namespace Supynote

/-- Outcome of the network fetch / local write for one file, when a
transfer is actually attempted.  success: the HTTP GET and the local
write both succeed.  netFail: the GET raises requests.RequestException
(respectively aiohttp.ClientError in the async variant).  ioFail: the
GET succeeds but opening or writing the local file raises OSError. -/
inductive TOutcome where
  | success
  | netFail
  | ioFail
  deriving DecidableEq, Repr

/-- One remote file together with the environment oracle for it:
size is the "size" field of the listing entry when present,
localExists / localSize describe the local path before the walk,
content is the byte length the device actually serves for the uri,
outcome is what happens if a transfer is attempted. -/
structure FileSpec where
  uri : String
  size : Option Nat
  localExists : Bool
  localSize : Nat
  content : Nat
  outcome : TOutcome
  deriving DecidableEq, Repr

/-- Supernote._should_skip_file, translated clause by clause.
The dictionary test ("size" in remote_file_info) becomes a match on the
optional size; local_path.exists() and local_path.stat().st_size are the
localExists / localSize oracle fields.  Printing is the only side effect
of the Python function and is dropped. -/
def should_skip_file (size : Option Nat) (localExists : Bool) (localSize : Nat)
    (force : Bool) (check_size : Bool) : Bool :=
  if force then false
  else if !localExists then false
  else if !check_size then true
  else
    match size with
    | some remote_size => if localSize = remote_size then true else false
    | none => true

/-- The skip policy as the specification words it: six ordered rules
(spec section 4.2).  Written from the spec text, to be compared with
should_skip_file which is written from the source. -/
def shouldSkipSpecRules (remoteSize : Option Nat) (localExists : Bool)
    (localByteLength : Nat) (force : Bool) (checkSize : Bool) : Bool :=
  if force then false                       -- rule 1: never skip
  else if localExists = false then false    -- rule 2: never skip
  else if checkSize = false then true       -- rule 3: skip
  else
    match remoteSize with
    | some n =>
      if localByteLength = n then true      -- rule 4: skip
      else false                            -- rule 5: do not skip
    | none => true                          -- rule 6: skip

/-- Skip decision for a FileSpec under the oracle fields it carries. -/
def skips (f : FileSpec) (force check_size : Bool) : Bool :=
  should_skip_file f.size f.localExists f.localSize force check_size

/-- Supernote.download_file.  hasInfo models the truthiness test
"if remote_file_info and ..." (the guard of the skip check).  The body
catches requests.RequestException only, so netFail is returned as False
while ioFail (an OSError raised between open and write, after a
successful GET) escapes as an uncaught exception: Except.error. -/
def download_file (f : FileSpec) (hasInfo force check_size : Bool) :
    Except Unit Bool :=
  if hasInfo && skips f force check_size then
    Except.ok true          -- skipped files count as successful
  else
    match f.outcome with
    | TOutcome.success => Except.ok true
    | TOutcome.netFail => Except.ok false   -- except requests.RequestException
    | TOutcome.ioFail => Except.error ()    -- OSError is not caught

/-- Supernote._download_file_async.  Same skip logic; the inner
_download coroutine catches aiohttp.ClientError only, so ioFail again
escapes the coroutine as an exception (captured later by
asyncio.gather(..., return_exceptions=True)). -/
def download_file_async (f : FileSpec) (hasInfo force check_size : Bool) :
    Except Unit Bool :=
  if hasInfo && skips f force check_size then
    Except.ok true
  else
    match f.outcome with
    | TOutcome.success => Except.ok true
    | TOutcome.netFail => Except.ok false   -- except aiohttp.ClientError
    | TOutcome.ioFail => Except.error ()

/-- The boolean a completed sync-variant future contributes: true when
download_file returned True.  Only meaningful when the call did not
raise. -/
def fileOk (f : FileSpec) (force check_size : Bool) : Bool :=
  match download_file f true force check_size with
  | Except.ok b => b
  | Except.error _ => false

/-- Whether the sync-variant download_file call raises an uncaught
exception (so future.result() re-raises it in download_directory). -/
def fileRaises (f : FileSpec) (force check_size : Bool) : Bool :=
  match download_file f true force check_size with
  | Except.ok _ => false
  | Except.error _ => true

/-- Whether an async transfer task resolves to True.  gather with
return_exceptions counts a task as successful iff its result is the
value True; both False and a captured exception count as failure. -/
def fileOkAsync (f : FileSpec) (force check_size : Bool) : Bool :=
  match download_file_async f true force check_size with
  | Except.ok b => b
  | Except.error _ => false

/-- A remote directory tree.  A dir node carries the result the listing
call for it would produce: none models list_files returning None (or a
falsy parsed payload), some none models a parsed dictionary without a
"fileList" key, some (some children) models data["fileList"] = children.
Both none and some none make download_directory return (0, 0). -/
inductive RNode where
  | file (f : FileSpec)
  | dir (uri : String) (listing : Option (Option (List RNode)))

/-- The file entries of one listing, in listing order (the partition
loop of download_directory keeps only items with isDirectory false). -/
def filesOf : List RNode → List FileSpec
  | [] => []
  | RNode.file f :: rest => f :: filesOf rest
  | RNode.dir _ _ :: rest => filesOf rest

mutual

/-- Supernote.download_directory over a directory tree.  The guard
(data falsy or missing fileList key, then return 0, 0) is the two none
branches.  The file batch is processed first: every future result is
read by as_completed, so if any download_file call raised, the walk
raises (Except.error) before the subdirectory loop; otherwise the True
results are counted.  Subdirectories are then recursed sequentially in
listing order.  mw is max_workers, the thread-pool bound: it affects
scheduling only, never the counts, and is unused in the model. -/
def download_directory (mw : Nat) (force check_size : Bool) :
    Option (Option (List RNode)) → Except Unit (Nat × Nat)
  | none => Except.ok (0, 0)
  | some none => Except.ok (0, 0)
  | some (some children) =>
    let files := filesOf children
    if files.any (fun f => fileRaises f force check_size) then Except.error ()
    else
      download_subdirs mw force check_size children
        ((files.filter (fun f => fileOk f force check_size)).length)
        files.length

/-- The sequential subdirectory loop of download_directory, carrying the
running (successful_downloads, total_files) accumulators.  An exception
raised inside a recursive call propagates (crosses the recursion
boundary), as in the Python code. -/
def download_subdirs (mw : Nat) (force check_size : Bool) :
    List RNode → Nat → Nat → Except Unit (Nat × Nat)
  | [], s, t => Except.ok (s, t)
  | RNode.file _ :: rest, s, t => download_subdirs mw force check_size rest s t
  | RNode.dir _ l :: rest, s, t =>
    match download_directory mw force check_size l with
    | Except.error e => Except.error e
    | Except.ok (s2, t2) => download_subdirs mw force check_size rest (s + s2) (t + t2)

end

/-- State of the instance attribute self._session. -/
inductive SessState where
  | noSession      -- self._session is None
  | openSession    -- a live aiohttp.ClientSession
  | closedSession  -- a ClientSession object whose closed flag is set
  deriving DecidableEq, Repr

/-- The lazy-creation guard of download_directory_async:
"if not self._session or self._session.closed: self._session =
aiohttp.ClientSession(...)".  Returns the new state and whether a new
session object was constructed. -/
def ensure_session : SessState → SessState × Bool
  | SessState.noSession => (SessState.openSession, true)
  | SessState.closedSession => (SessState.openSession, true)
  | SessState.openSession => (SessState.openSession, false)

/-- Supernote.close_async: closes the session and sets the attribute to
None only when a session exists and is not already closed. -/
def close_async : SessState → SessState
  | SessState.openSession => SessState.noSession
  | s => s

mutual

/-- Supernote.download_directory_async over a directory tree.  avail is
ASYNC_AVAILABLE: when false the function returns (0, 0) before touching
the session.  Otherwise the session guard runs, then the listing; on a
missing listing or missing fileList key the call returns (0, 0) with the
session left open (the finally block keeps it).  File tasks are gathered
with return_exceptions=True, so a task that raised counts as a failure
instead of aborting siblings; subdirectories are awaited sequentially.
The value is ((successful_downloads, total_files), session state on
exit, number of ClientSession objects constructed during the call).
mc is max_concurrent: it sizes the semaphore and the connection pool,
never the counts, and is unused in the model. -/
def download_directory_async (avail : Bool) (mc : Nat) (force check_size : Bool) :
    Option (Option (List RNode)) → SessState → (Nat × Nat) × SessState × Nat
  | l, sess =>
    if avail = false then ((0, 0), sess, 0)
    else
      let es := ensure_session sess
      let created := if es.2 then 1 else 0
      match l with
      | none => ((0, 0), es.1, created)
      | some none => ((0, 0), es.1, created)
      | some (some children) =>
        let files := filesOf children
        async_subdirs avail mc force check_size children
          ((files.filter (fun f => fileOkAsync f force check_size)).length)
          files.length es.1 created

/-- The sequential subdirectory loop of download_directory_async,
threading the session state and the construction count through the
recursive calls. -/
def async_subdirs (avail : Bool) (mc : Nat) (force check_size : Bool) :
    List RNode → Nat → Nat → SessState → Nat → (Nat × Nat) × SessState × Nat
  | [], s, t, sess, cr => ((s, t), sess, cr)
  | RNode.file _ :: rest, s, t, sess, cr =>
    async_subdirs avail mc force check_size rest s t sess cr
  | RNode.dir _ l :: rest, s, t, sess, cr =>
    let r := download_directory_async avail mc force check_size l sess
    async_subdirs avail mc force check_size rest
      (s + r.1.1) (t + r.1.2) r.2.1 (cr + r.2.2)

end

mutual

/-- Number of file entries counted with weight p, transitively through
the listings that are present (a failed listing hides its subtree, as it
does for the running code). -/
def countFilesP (p : FileSpec → Bool) : Option (Option (List RNode)) → Nat
  | none => 0
  | some none => 0
  | some (some children) => countForestP p children

def countForestP (p : FileSpec → Bool) : List RNode → Nat
  | [] => 0
  | RNode.file f :: rest => (if p f then 1 else 0) + countForestP p rest
  | RNode.dir _ l :: rest => countFilesP p l + countForestP p rest

end

/-- Number of file entries encountered transitively under the root. -/
def countFiles (l : Option (Option (List RNode))) : Nat :=
  countFilesP (fun _ => true) l

mutual

/-- All file entries reachable through present listings satisfy p. -/
def allFiles (p : FileSpec → Bool) : Option (Option (List RNode)) → Bool
  | none => true
  | some none => true
  | some (some children) => allForest p children

def allForest (p : FileSpec → Bool) : List RNode → Bool
  | [] => true
  | RNode.file f :: rest => p f && allForest p rest
  | RNode.dir _ l :: rest => allFiles p l && allForest p rest

end

mutual

/-- Every listing in the tree, the root included, is present and carries
a fileList. -/
def listingsOk : Option (Option (List RNode)) → Bool
  | none => false
  | some none => false
  | some (some children) => listingsOkForest children

def listingsOkForest : List RNode → Bool
  | [] => true
  | RNode.file _ :: rest => listingsOkForest rest
  | RNode.dir _ l :: rest => listingsOk l && listingsOkForest rest

end

mutual

/-- Pointwise image of a tree under a per-file state update. -/
def mapFiles (g : FileSpec → FileSpec) : Option (Option (List RNode)) →
    Option (Option (List RNode))
  | none => none
  | some none => some none
  | some (some children) => some (some (mapForest g children))

def mapForest (g : FileSpec → FileSpec) : List RNode → List RNode
  | [] => []
  | RNode.file f :: rest => RNode.file (g f) :: mapForest g rest
  | RNode.dir u l :: rest => RNode.dir u (mapFiles g l) :: mapForest g rest

end

/-- Effect of one run of download_file on the local state of one file:
a skipped file is untouched; a successful transfer leaves the file
present with exactly the served bytes; a failed GET writes nothing; a
write that raised OSError after the open-for-writing truncation leaves
a zero-length file behind. -/
def updateFile (force check_size : Bool) (f : FileSpec) : FileSpec :=
  if skips f force check_size then f
  else
    match f.outcome with
    | TOutcome.success => { f with localExists := true, localSize := f.content }
    | TOutcome.netFail => f
    | TOutcome.ioFail => { f with localExists := true, localSize := 0 }

/-- A listing entry as parsed out of the embedded JSON payload. -/
structure REntry where
  uri : String
  name : String
  isDirectory : Bool
  size : Option Nat
  deriving DecidableEq, Repr

/-- The parsed top-level JSON object.  fileList is none when the object
has no "fileList" key. -/
structure SNData where
  fileList : Option (List REntry)
  deriving DecidableEq, Repr

/-- The script-tag search of list_files: BeautifulSoup.find with the
predicate (text present and containing the marker const json), i.e.
the first script string containing the marker substring.  A Python substring test s1 in s2 is
rendered as s2.splitOn s1 having at least two pieces. -/
def findMarkerScript (scripts : List String) : Option String :=
  scripts.find? (fun s => 2 ≤ (s.splitOn "const json").length)

/-- The payload extraction of list_files:
script.split("const json = ")[1].strip().split(CHR39)[1] where CHR39 is
the single-quote character.  Python raises IndexError when an index is
missing; the surrounding except clause turns that into None, modelled by
Option.  -/
def extractPayload (s : String) : Option String :=
  match (s.splitOn "const json = ").get? 1 with
  | none => none
  | some rest => (rest.trim.split (fun c => c = Char.ofNat 39)).get? 1

/-- Supernote.list_files.  net is the HTTP outcome: none when
requests.get raises RequestException, some scripts for a 200 response
whose parsed HTML holds the given script strings.  parseJson is the
json.loads oracle: none when loads raises (malformed payload).  Every
failure path of the Python function falls through to return None. -/
def list_files (net : Option (List String))
    (parseJson : String → Option SNData) : Option SNData :=
  match net with
  | none => none
  | some scripts =>
    match findMarkerScript scripts with
    | none => none
    | some s =>
      match extractPayload s with
      | none => none
      | some payload => parseJson payload

/-- The guard of download_directory (not data, or no fileList key in
data): true exactly when list_files produced no data or the parsed
object lacks a fileList key (an empty dict is falsy and also lacks the
key, so the two Python tests collapse to these cases). -/
def listingGuard : Option SNData → Bool
  | none => true
  | some d => d.fileList.isNone

/-- The operations download_and_convert dispatches to.  Paths are the
character sequences of the Python strings. -/
inductive ConvAct where
  | dlFile (remote : List Char)
  | convFile (remote : List Char)
  | dlDir (remote : List Char)
  | convDir (remote : List Char)
  deriving DecidableEq, Repr

/-- Supernote.download_and_convert, as its branch structure and the
operations it performs, over the characters of remote_path.  The Python
tests translate as: SLASH in remote_path is membership of the slash
character; remote_path.endswith(SLASH) is the one-character suffix
test; remote_path.lower().endswith(DOTNOTE) is the suffix test on the
lowercased characters.  dl_ok is the result of the download_file call,
convFileOk the result of PDFConverter.convert_file, dirSuccess the
success count of PDFConverter.convert_directory.  Returns the boolean
result of the Python function and the list of operations performed in
order. -/
def download_and_convert (remote_path : List Char) (dl_ok convFileOk : Bool)
    (dirSuccess : Nat) : Bool × List ConvAct :=
  if remote_path.contains '/' && !(List.isSuffixOf ['/'] remote_path) then
    if !dl_ok then (false, [ConvAct.dlFile remote_path])
    else if List.isSuffixOf ['.', 'n', 'o', 't', 'e'] (remote_path.map Char.toLower) then
      (convFileOk, [ConvAct.dlFile remote_path, ConvAct.convFile remote_path])
    else
      (true, [ConvAct.dlFile remote_path])
  else
    (decide (0 < dirSuccess),
      [ConvAct.dlDir remote_path, ConvAct.convDir remote_path])

/-! ### Further definitions used by the statements -/

/-- The subdirectory contribution of one level: the p-weighted file
count of every dir child, files of the level excluded. -/
def subCountP (p : FileSpec → Bool) : List RNode → Nat
  | [] => 0
  | RNode.file _ :: rest => subCountP p rest
  | RNode.dir _ l :: rest => countFilesP p l + subCountP p rest

/-- The listings of the dir children of one level, in listing order
(the directories_to_process list). -/
def dirListings : List RNode → List (Option (Option (List RNode)))
  | [] => []
  | RNode.file _ :: rest => dirListings rest
  | RNode.dir _ l :: rest => l :: dirListings rest

/-- The pair a non-raising download_directory call produced. -/
def okPair : Except Unit (Nat × Nat) → Nat × Nat
  | Except.ok p => p
  | Except.error _ => (0, 0)

/-- Phase of one transfer task of a download_directory_async batch,
under the cooperative asyncio scheduler.  pending: the coroutine exists
but has not run; waiting: it is suspended in the acquire of
"async with semaphore" (or about to return without a transfer);
inFlight: it holds a permit and the network fetch of _download is
running; done: it returned (the async-with released any held permit,
on success and on failure alike). -/
inductive TaskPhase where
  | pending
  | waiting
  | inFlight
  | done
  deriving DecidableEq, BEq, Repr

/-- Number of transfers currently in flight. -/
def inFlightCount (ts : List TaskPhase) : Nat :=
  ts.count TaskPhase.inFlight

/-- One scheduler step of a batch of transfer tasks sharing one
asyncio.Semaphore of capacity k, as created by download_directory_async.
start: a task begins and reaches the semaphore block; skipDone: a task
takes the skip path and returns without ever requesting a permit;
acquire: a waiting task obtains a permit, enabled only while fewer than
k transfers are in flight (the semaphore blocks otherwise); release: an
in-flight task finishes (successfully or not) and the async-with
releases its permit. -/
inductive SemStep (k : Nat) : List TaskPhase → List TaskPhase → Prop where
  | start (l r : List TaskPhase) :
      SemStep k (l ++ TaskPhase.pending :: r) (l ++ TaskPhase.waiting :: r)
  | skipDone (l r : List TaskPhase) :
      SemStep k (l ++ TaskPhase.pending :: r) (l ++ TaskPhase.done :: r)
  | acquire (l r : List TaskPhase) :
      inFlightCount (l ++ TaskPhase.waiting :: r) < k →
      SemStep k (l ++ TaskPhase.waiting :: r) (l ++ TaskPhase.inFlight :: r)
  | release (l r : List TaskPhase) :
      SemStep k (l ++ TaskPhase.inFlight :: r) (l ++ TaskPhase.done :: r)

/-- Reachability under the scheduler. -/
def SemReach (k : Nat) : List TaskPhase → List TaskPhase → Prop :=
  Relation.ReflTransGen (SemStep k)

/-! ### Helper lemmas about the tree combinators -/

mutual

theorem allFiles_imp (p q : FileSpec → Bool) (hpq : ∀ f, p f = true → q f = true) :
    ∀ l, allFiles p l = true → allFiles q l = true
  | none, _ => by simp [allFiles]
  | some none, _ => by simp [allFiles]
  | some (some children), h => by
    rw [allFiles] at h ⊢
    exact allForest_imp p q hpq children h

theorem allForest_imp (p q : FileSpec → Bool) (hpq : ∀ f, p f = true → q f = true) :
    ∀ nodes, allForest p nodes = true → allForest q nodes = true
  | [], _ => by simp [allForest]
  | RNode.file f :: rest, h => by
    rw [allForest] at h ⊢
    rw [Bool.and_eq_true] at h ⊢
    exact ⟨hpq f h.1, allForest_imp p q hpq rest h.2⟩
  | RNode.dir u l :: rest, h => by
    rw [allForest] at h ⊢
    rw [Bool.and_eq_true] at h ⊢
    exact ⟨allFiles_imp p q hpq l h.1, allForest_imp p q hpq rest h.2⟩

end

mutual

theorem allFiles_and (p q : FileSpec → Bool) :
    ∀ l, allFiles p l = true → allFiles q l = true →
      allFiles (fun f => p f && q f) l = true
  | none, _, _ => by simp [allFiles]
  | some none, _, _ => by simp [allFiles]
  | some (some children), hp, hq => by
    rw [allFiles] at hp hq ⊢
    exact allForest_and p q children hp hq

theorem allForest_and (p q : FileSpec → Bool) :
    ∀ nodes, allForest p nodes = true → allForest q nodes = true →
      allForest (fun f => p f && q f) nodes = true
  | [], _, _ => by simp [allForest]
  | RNode.file f :: rest, hp, hq => by
    rw [allForest, Bool.and_eq_true] at hp hq ⊢
    exact ⟨by simp [hp.1, hq.1], allForest_and p q rest hp.2 hq.2⟩
  | RNode.dir u l :: rest, hp, hq => by
    rw [allForest, Bool.and_eq_true] at hp hq ⊢
    exact ⟨allFiles_and p q l hp.1 hq.1, allForest_and p q rest hp.2 hq.2⟩

end

mutual

theorem countFilesP_le (p q : FileSpec → Bool) (hpq : ∀ f, p f = true → q f = true) :
    ∀ l, countFilesP p l ≤ countFilesP q l
  | none => by simp [countFilesP]
  | some none => by simp [countFilesP]
  | some (some children) => by
    rw [countFilesP, countFilesP]
    exact countForestP_le p q hpq children

theorem countForestP_le (p q : FileSpec → Bool) (hpq : ∀ f, p f = true → q f = true) :
    ∀ nodes, countForestP p nodes ≤ countForestP q nodes
  | [] => by simp [countForestP]
  | RNode.file f :: rest => by
    rw [countForestP, countForestP]
    have h1 : (if p f then 1 else 0) ≤ (if q f then 1 else 0) := by
      by_cases hp : p f = true
      · simp [hp, hpq f hp]
      · simp [hp]
    exact Nat.add_le_add h1 (countForestP_le p q hpq rest)
  | RNode.dir u l :: rest => by
    rw [countForestP, countForestP]
    exact Nat.add_le_add (countFilesP_le p q hpq l) (countForestP_le p q hpq rest)

end

mutual

theorem countFilesP_eq_of_all (r p : FileSpec → Bool)
    (hrp : ∀ f, r f = true → p f = true) :
    ∀ l, allFiles r l = true → countFilesP p l = countFiles l
  | none, _ => by simp [countFilesP, countFiles]
  | some none, _ => by simp [countFilesP, countFiles]
  | some (some children), h => by
    rw [allFiles] at h
    rw [countFiles, countFilesP, countFilesP]
    exact countForestP_eq_of_all r p hrp children h

theorem countForestP_eq_of_all (r p : FileSpec → Bool)
    (hrp : ∀ f, r f = true → p f = true) :
    ∀ nodes, allForest r nodes = true →
      countForestP p nodes = countForestP (fun _ => true) nodes
  | [], _ => by simp [countForestP]
  | RNode.file f :: rest, h => by
    rw [allForest, Bool.and_eq_true] at h
    rw [countForestP, countForestP, hrp f h.1,
      countForestP_eq_of_all r p hrp rest h.2]
  | RNode.dir u l :: rest, h => by
    rw [allForest, Bool.and_eq_true] at h
    rw [countForestP, countForestP,
      countForestP_eq_of_all r p hrp rest h.2]
    have h2 := countFilesP_eq_of_all r p hrp l h.1
    rw [countFiles] at h2
    rw [h2]

end

mutual

theorem allFiles_map (q : FileSpec → Bool) (g : FileSpec → FileSpec) :
    ∀ l, allFiles q (mapFiles g l) = allFiles (fun f => q (g f)) l
  | none => by simp [allFiles, mapFiles]
  | some none => by simp [allFiles, mapFiles]
  | some (some children) => by
    rw [mapFiles, allFiles, allFiles]
    exact allForest_map q g children

theorem allForest_map (q : FileSpec → Bool) (g : FileSpec → FileSpec) :
    ∀ nodes, allForest q (mapForest g nodes) = allForest (fun f => q (g f)) nodes
  | [] => by simp [allForest, mapForest]
  | RNode.file f :: rest => by
    rw [mapForest, allForest, allForest, allForest_map q g rest]
  | RNode.dir u l :: rest => by
    rw [mapForest, allForest, allForest, allForest_map q g rest,
      allFiles_map q g l]

end

mutual

theorem countFilesP_map (p : FileSpec → Bool) (g : FileSpec → FileSpec) :
    ∀ l, countFilesP p (mapFiles g l) = countFilesP (fun f => p (g f)) l
  | none => by simp [countFilesP, mapFiles]
  | some none => by simp [countFilesP, mapFiles]
  | some (some children) => by
    rw [mapFiles, countFilesP, countFilesP]
    exact countForestP_map p g children

theorem countForestP_map (p : FileSpec → Bool) (g : FileSpec → FileSpec) :
    ∀ nodes, countForestP p (mapForest g nodes) = countForestP (fun f => p (g f)) nodes
  | [] => by simp [countForestP, mapForest]
  | RNode.file f :: rest => by
    rw [mapForest, countForestP, countForestP, countForestP_map p g rest]
  | RNode.dir u l :: rest => by
    rw [mapForest, countForestP, countForestP, countForestP_map p g rest,
      countFilesP_map p g l]

end

/-- countFiles is preserved by any per-file state update. -/
theorem countFiles_map (g : FileSpec → FileSpec) (l : Option (Option (List RNode))) :
    countFiles (mapFiles g l) = countFiles l := by
  rw [countFiles, countFiles, countFilesP_map]

/-- The forest-level predicate restricted to the level files. -/
theorem filesOf_all (p : FileSpec → Bool) :
    ∀ nodes, allForest p nodes = true → (filesOf nodes).all p = true := by
  intro nodes
  induction nodes with
  | nil => simp [filesOf]
  | cons head rest ih =>
    cases head with
    | file f =>
      rw [allForest, Bool.and_eq_true, filesOf]
      intro h
      rw [List.all_cons, Bool.and_eq_true]
      exact ⟨h.1, ih h.2⟩
    | dir u l =>
      rw [allForest, Bool.and_eq_true, filesOf]
      intro h
      exact ih h.2

/-! ### Per-file characterizations -/

/-- A sync-variant file task resolves to True exactly when the file is
skipped or its transfer succeeds. -/
theorem fileOk_eq (f : FileSpec) (force cs : Bool) :
    fileOk f force cs = (skips f force cs || f.outcome == TOutcome.success) := by
  unfold fileOk download_file
  cases h : skips f force cs <;> cases ho : f.outcome <;> simp [h, ho]

/-- A sync-variant file task raises exactly when the file is not skipped
and the local write fails. -/
theorem fileRaises_eq (f : FileSpec) (force cs : Bool) :
    fileRaises f force cs = (!skips f force cs && (f.outcome == TOutcome.ioFail)) := by
  unfold fileRaises download_file
  cases h : skips f force cs <;> cases ho : f.outcome <;> simp [h, ho]

/-- Both variants classify each individual file identically. -/
theorem fileOkAsync_eq_fileOk (f : FileSpec) (force cs : Bool) :
    fileOkAsync f force cs = fileOk f force cs := by
  unfold fileOkAsync fileOk download_file download_file_async
  rfl

/-! ### Splitting a level into its file batch and its subdirectories -/

theorem countForestP_split (p : FileSpec → Bool) (nodes : List RNode) :
    countForestP p nodes = ((filesOf nodes).filter p).length + subCountP p nodes := by
  induction nodes with
  | nil => simp [countForestP, filesOf, subCountP]
  | cons head rest ih =>
    cases head with
    | file f =>
      rw [countForestP, filesOf, subCountP, ih]
      by_cases hp : p f = true
      · simp [hp, List.filter_cons]
        omega
      · rw [Bool.not_eq_true] at hp
        simp [hp, List.filter_cons]
    | dir u l =>
      rw [countForestP, filesOf, subCountP, ih]
      omega

/-! ### The master characterization of the sync variant -/

mutual

/-- When no reachable file task raises, download_directory returns
normally with the pair (number of ok files, number of files). -/
theorem download_directory_master (mw : Nat) (force cs : Bool) :
    ∀ l, allFiles (fun f => !fileRaises f force cs) l = true →
      download_directory mw force cs l =
        Except.ok (countFilesP (fun f => fileOk f force cs) l, countFiles l)
  | none, _ => by simp [download_directory, countFilesP, countFiles]
  | some none, _ => by simp [download_directory, countFilesP, countFiles]
  | some (some children), h => by
    rw [allFiles] at h
    have hall := filesOf_all _ children h
    have hany : (filesOf children).any (fun f => fileRaises f force cs) = false := by
      rw [List.any_eq_false]
      intro f hf
      have h2 := (List.all_eq_true.mp hall) f hf
      simp at h2
      simp [h2]
    rw [countFiles, countFilesP, countFilesP]
    simp only [download_directory, hany]
    rw [download_subdirs_master mw force cs children _ _ h]
    rw [countForestP_split, countForestP_split]
    simp

/-- The subdirectory loop adds exactly the subdirectory contributions to
the running accumulators. -/
theorem download_subdirs_master (mw : Nat) (force cs : Bool) :
    ∀ nodes s t, allForest (fun f => !fileRaises f force cs) nodes = true →
      download_subdirs mw force cs nodes s t =
        Except.ok (s + subCountP (fun f => fileOk f force cs) nodes,
          t + subCountP (fun _ => true) nodes)
  | [], s, t, _ => by simp [download_subdirs, subCountP]
  | RNode.file f :: rest, s, t, h => by
    rw [allForest, Bool.and_eq_true] at h
    rw [download_subdirs, subCountP, subCountP]
    exact download_subdirs_master mw force cs rest s t h.2
  | RNode.dir u l :: rest, s, t, h => by
    rw [allForest, Bool.and_eq_true] at h
    rw [download_subdirs, download_directory_master mw force cs l h.1]
    show download_subdirs mw force cs rest
      (s + countFilesP (fun f => fileOk f force cs) l) (t + countFiles l) = _
    rw [subCountP, subCountP]
    rw [download_subdirs_master mw force cs rest _ _ h.2]
    rw [countFiles]
    simp [Nat.add_assoc]

end

mutual

/-- When some reachable file task raises, the exception crosses every
recursion boundary: download_directory itself raises. -/
theorem download_directory_err (mw : Nat) (force cs : Bool) :
    ∀ l, allFiles (fun f => !fileRaises f force cs) l = false →
      download_directory mw force cs l = Except.error ()
  | none, h => by simp [allFiles] at h
  | some none, h => by simp [allFiles] at h
  | some (some children), h => by
    rw [allFiles] at h
    by_cases hany : (filesOf children).any (fun f => fileRaises f force cs) = true
    · simp only [download_directory, hany]
      rfl
    · rw [Bool.not_eq_true] at hany
      simp only [download_directory, hany]
      have hfiles : (filesOf children).all (fun f => !fileRaises f force cs) = true := by
        rw [List.all_eq_true]
        intro f hf
        have h2 := (List.any_eq_false.mp hany) f hf
        simp at h2
        simp [h2]
      exact download_subdirs_err mw force cs children _ _ h hfiles

theorem download_subdirs_err (mw : Nat) (force cs : Bool) :
    ∀ nodes s t, allForest (fun f => !fileRaises f force cs) nodes = false →
      (filesOf nodes).all (fun f => !fileRaises f force cs) = true →
      download_subdirs mw force cs nodes s t = Except.error ()
  | [], s, t, h, _ => by simp [allForest] at h
  | RNode.file f :: rest, s, t, h, hf => by
    rw [allForest] at h
    rw [filesOf, List.all_cons, Bool.and_eq_true] at hf
    rw [hf.1] at h
    simp at h
    rw [download_subdirs]
    exact download_subdirs_err mw force cs rest s t h hf.2
  | RNode.dir u l :: rest, s, t, h, hf => by
    rw [allForest] at h
    rw [filesOf] at hf
    rw [download_subdirs]
    by_cases hl : allFiles (fun f => !fileRaises f force cs) l = true
    · rw [hl] at h
      simp at h
      rw [download_directory_master mw force cs l hl]
      exact download_subdirs_err mw force cs rest _ _ h hf
    · rw [Bool.not_eq_true] at hl
      rw [download_directory_err mw force cs l hl]

end

/-! ### The master characterization of the async variant -/

theorem ensure_session_openSession :
    ∀ sess, (ensure_session sess).1 = SessState.openSession := by
  intro sess
  cases sess <;> rfl

mutual

/-- With async dependencies available, download_directory_async never
raises: it returns the pair (number of tasks resolving to True, number
of files), leaves the session open on every exit path, and constructs a
new session exactly when the entry state holds no open session. -/
theorem download_directory_async_master (mc : Nat) (force cs : Bool) :
    ∀ l sess, download_directory_async true mc force cs l sess =
      ((countFilesP (fun f => fileOkAsync f force cs) l, countFiles l),
        SessState.openSession, if (ensure_session sess).2 then 1 else 0)
  | none, sess => by
    simp only [download_directory_async, countFilesP, countFiles]
    rw [ensure_session_openSession]
    simp
  | some none, sess => by
    simp only [download_directory_async, countFilesP, countFiles]
    rw [ensure_session_openSession]
    simp
  | some (some children), sess => by
    simp only [download_directory_async]
    rw [ensure_session_openSession]
    simp only [Bool.true_eq_false, if_false]
    rw [async_subdirs_master mc force cs children _ _ _]
    rw [countFiles, countFilesP, countFilesP]
    rw [countForestP_split, countForestP_split]
    simp

/-- The async subdirectory loop, entered with an open session, adds
exactly the subdirectory contributions, keeps the session open and
constructs no further session. -/
theorem async_subdirs_master (mc : Nat) (force cs : Bool) :
    ∀ nodes s t cr, async_subdirs true mc force cs nodes s t SessState.openSession cr =
      ((s + subCountP (fun f => fileOkAsync f force cs) nodes,
        t + subCountP (fun _ => true) nodes),
        SessState.openSession, cr)
  | [], s, t, cr => by simp [async_subdirs, subCountP]
  | RNode.file f :: rest, s, t, cr => by
    rw [async_subdirs, subCountP, subCountP]
    exact async_subdirs_master mc force cs rest s t cr
  | RNode.dir u l :: rest, s, t, cr => by
    rw [async_subdirs]
    simp only [download_directory_async_master mc force cs l SessState.openSession]
    rw [subCountP, subCountP]
    simp only [ensure_session]
    rw [async_subdirs_master mc force cs rest _ _ _]
    rw [countFiles]
    simp [Nat.add_assoc]

end

/-- With async dependencies missing, the call returns (0, 0) before
touching the session. -/
theorem download_directory_async_unavail (mc : Nat) (force cs : Bool)
    (l : Option (Option (List RNode))) (sess : SessState) :
    download_directory_async false mc force cs l sess = ((0, 0), sess, 0) := by
  cases l with
  | none => simp [download_directory_async]
  | some l2 => cases l2 <;> simp [download_directory_async]

/-! ### Sums over the subdirectory results of one level -/

theorem subCountP_eq_sum (p : FileSpec → Bool) (nodes : List RNode) :
    ((dirListings nodes).map (fun d => countFilesP p d)).sum = subCountP p nodes := by
  induction nodes with
  | nil => simp [dirListings, subCountP]
  | cons head rest ih =>
    cases head with
    | file f => rw [dirListings, subCountP, ih]
    | dir u l =>
      rw [dirListings, subCountP, List.map_cons, List.sum_cons, ih]

theorem subSum_ok (mw : Nat) (force cs : Bool) (nodes : List RNode)
    (h : allForest (fun f => !fileRaises f force cs) nodes = true) :
    ((dirListings nodes).map
      (fun d => (okPair (download_directory mw force cs d)).1)).sum =
        subCountP (fun f => fileOk f force cs) nodes
    ∧ ((dirListings nodes).map
      (fun d => (okPair (download_directory mw force cs d)).2)).sum =
        subCountP (fun _ => true) nodes := by
  induction nodes with
  | nil => simp [dirListings, subCountP]
  | cons head rest ih =>
    cases head with
    | file f =>
      rw [allForest, Bool.and_eq_true] at h
      rw [dirListings, subCountP, subCountP]
      exact ih h.2
    | dir u l =>
      rw [allForest, Bool.and_eq_true] at h
      have hmaster := download_directory_master mw force cs l h.1
      have ihr := ih h.2
      rw [dirListings, subCountP, subCountP, List.map_cons, List.sum_cons,
        List.map_cons, List.sum_cons, hmaster]
      rw [okPair]
      exact ⟨by rw [ihr.1], by rw [countFiles, ihr.2]⟩

/-! ### The semaphore bound of the pooled variant -/

theorem inFlightCount_append (a b : List TaskPhase) :
    inFlightCount (a ++ b) = inFlightCount a + inFlightCount b := by
  simp [inFlightCount, List.count_append]

/-- One scheduler step never pushes the number of in-flight transfers
above the permit capacity. -/
theorem semStep_preserves (k : Nat) (ts ts2 : List TaskPhase)
    (hstep : SemStep k ts ts2) (hinv : inFlightCount ts ≤ k) :
    inFlightCount ts2 ≤ k := by
  cases hstep with
  | start l r =>
    rw [inFlightCount_append] at hinv ⊢
    simpa [inFlightCount, List.count_cons] using hinv
  | skipDone l r =>
    rw [inFlightCount_append] at hinv ⊢
    simpa [inFlightCount, List.count_cons] using hinv
  | acquire l r hlt =>
    have e1 : (TaskPhase.waiting == TaskPhase.inFlight) = false := by decide
    have e2 : (TaskPhase.inFlight == TaskPhase.inFlight) = true := by decide
    have e3 : (TaskPhase.inFlight == TaskPhase.waiting) = false := by decide
    rw [inFlightCount_append] at hlt ⊢
    simp [inFlightCount, List.count_cons, e1, e2, e3] at hlt ⊢
    omega
  | release l r =>
    have e2 : (TaskPhase.inFlight == TaskPhase.inFlight) = true := by decide
    have e4 : (TaskPhase.done == TaskPhase.inFlight) = false := by decide
    have e5 : (TaskPhase.inFlight == TaskPhase.done) = false := by decide
    rw [inFlightCount_append] at hinv ⊢
    simp [inFlightCount, List.count_cons, e2, e4, e5] at hinv ⊢
    omega

/-! ### The claims -/

/-- C2: for every input, _should_skip_file implements exactly the six
ordered rules of the specification (force wins, then missing local
file, then checkSize off, then size equality / inequality, then
unknown-size defaulting to skip).  Both sides are total Lean functions
of exactly these inputs, so the result depends on nothing else and has
no side effect; logging is the only effect of the Python code and is
dropped by the embedding. -/
theorem skip_policy_six_rules :
    ∀ (remoteSize : Option Nat) (localExists : Bool) (localSize : Nat)
      (force checkSize : Bool),
      should_skip_file remoteSize localExists localSize force checkSize =
        shouldSkipSpecRules remoteSize localExists localSize force checkSize := by
  intro remoteSize localExists localSize force checkSize
  unfold should_skip_file shouldSkipSpecRules
  cases force <;> cases localExists <;> cases checkSize <;>
    cases remoteSize <;> simp

/-- C4: list_files is a total function returning none on every failure
path - HTTP failure (net = none), marker script absent, malformed
payload (the parse oracle yields none) - and download_directory maps a
missing listing and a listing without a fileList key to (0, 0) instead
of raising; listingGuard is the exact guard condition. -/
theorem list_files_no_data_and_guard :
    (∀ parse, list_files none parse = none)
    ∧ (∀ scripts parse, findMarkerScript scripts = none →
        list_files (some scripts) parse = none)
    ∧ (∀ net, list_files net (fun _ => none) = none)
    ∧ (∀ mw force cs,
        download_directory mw force cs none = Except.ok (0, 0)
        ∧ download_directory mw force cs (some none) = Except.ok (0, 0))
    ∧ (listingGuard none = true ∧ ∀ d : SNData, listingGuard (some d) = d.fileList.isNone) := by
  refine ⟨fun _ => rfl, ?_, ?_, ?_, rfl, fun _ => rfl⟩
  · intro scripts parse h
    simp only [list_files]
    rw [h]
  · intro net
    cases net with
    | none => rfl
    | some scripts =>
      simp only [list_files]
      cases h : findMarkerScript scripts with
      | none => rfl
      | some s =>
        cases h2 : extractPayload s with
        | none => simp [h2]
        | some pay => simp [h2]
  · intro mw force cs
    constructor <;> simp [download_directory]

/-- C4 witness: a concrete response without any script tag yields none,
and a crash-free (0, 0) comes back for an unreachable directory. -/
theorem list_files_no_data_witness :
    list_files (some []) (fun _ => some { fileList := some [] }) = none
    ∧ download_directory 4 false true none = Except.ok (0, 0) := by
  constructor
  · exact list_files_no_data_and_guard.2.1 [] _ rfl
  · exact (list_files_no_data_and_guard.2.2.2.1 4 false true).1

/-- C3 counterexample: a local I/O failure during the write (OSError
after a successful GET, e.g. disk full) does not make download_file
return False - the exception escapes, because the body catches
requests.RequestException only.  The claim "returns False on any
network or local I/O failure" is therefore false as stated. -/
theorem download_file_io_failure_raises :
    download_file ⟨"a.note", some 5, false, 0, 5, TOutcome.ioFail⟩ true false true =
      Except.error () := rfl

/-- C3 amended: download_file returns False (never an exception) on any
network failure during the transfer, and returns normally whenever the
local write does not raise; under that proviso no failure propagates
out of download_directory either - it returns a normal pair for every
tree whose reachable files have no local-write failure. -/
theorem download_file_error_policy :
    ∀ (f : FileSpec) (hasInfo force cs : Bool),
      (f.outcome ≠ TOutcome.ioFail → ∃ b, download_file f hasInfo force cs = Except.ok b)
      ∧ (f.outcome = TOutcome.netFail →
          download_file f hasInfo force cs = Except.ok (hasInfo && skips f force cs))
      ∧ (∀ (mw : Nat) (l : Option (Option (List RNode))),
          allFiles (fun g => !(g.outcome == TOutcome.ioFail)) l = true →
          ∃ pr, download_directory mw force cs l = Except.ok pr) := by
  intro f hasInfo force cs
  refine ⟨?_, ?_, ?_⟩
  · intro h
    unfold download_file
    cases hs : hasInfo && skips f force cs <;> cases ho : f.outcome <;> simp_all
  · intro h
    unfold download_file
    cases hs : hasInfo && skips f force cs <;> simp [hs, h]
  · intro mw l hl
    refine ⟨_, download_directory_master mw force cs l ?_⟩
    apply allFiles_imp _ _ _ l hl
    intro g hg
    rw [fileRaises_eq]
    simp only [Bool.not_eq_true'] at hg
    simp [hg]

/-- C3 amended witness: a concrete network failure comes back as the
boolean False, and a one-file tree with that failure still returns a
normal (0, 1) style pair. -/
theorem download_file_error_policy_witness :
    FileSpec.outcome ⟨"b", some 3, false, 0, 3, TOutcome.netFail⟩ = TOutcome.netFail
    ∧ download_file ⟨"b", some 3, false, 0, 3, TOutcome.netFail⟩ true false true =
        Except.ok (true && skips ⟨"b", some 3, false, 0, 3, TOutcome.netFail⟩ false true)
    ∧ allFiles (fun g => !(g.outcome == TOutcome.ioFail))
        (some (some [RNode.file ⟨"b", some 3, false, 0, 3, TOutcome.netFail⟩])) = true
    ∧ ∃ pr, download_directory 4 false true
        (some (some [RNode.file ⟨"b", some 3, false, 0, 3, TOutcome.netFail⟩])) =
          Except.ok pr := by
  refine ⟨rfl, ?_, ?_, ?_⟩
  · exact (download_file_error_policy _ true false true).2.1 rfl
  · simp [allFiles, allForest]
  · exact (download_file_error_policy
      ⟨"b", some 3, false, 0, 3, TOutcome.netFail⟩ true false true).2.2 4 _
      (by simp [allFiles, allForest])

/-- C5: whenever download_directory returns a pair on a tree all of
whose listings succeed, the returned total equals the number of
non-directory entries encountered transitively under the root, for
every max_workers bound and regardless of which transfers succeed
(transfer outcomes influence only the success component; a run that
returns at all has a totalCount independent of them). -/
theorem total_count_is_file_count :
    ∀ (mw : Nat) (force cs : Bool) (l : Option (Option (List RNode))) (s t : Nat),
      listingsOk l = true →
      download_directory mw force cs l = Except.ok (s, t) →
      t = countFiles l := by
  intro mw force cs l s t hlist hret
  by_cases hr : allFiles (fun f => !fileRaises f force cs) l = true
  · rw [download_directory_master mw force cs l hr] at hret
    simp only [Except.ok.injEq, Prod.mk.injEq] at hret
    exact hret.2.symm
  · rw [download_directory_err mw force cs l (Bool.eq_false_iff.mpr hr)] at hret
    exact absurd hret (by simp)

/-- C5 witness: a two-level tree (one file at the root, one in a
subdirectory, with one transfer failing) has total 2 for any worker
bound. -/
theorem total_count_is_file_count_witness :
    listingsOk (some (some [RNode.file ⟨"a", some 2, false, 0, 2, TOutcome.success⟩,
        RNode.dir "Sub" (some (some [RNode.file ⟨"c", none, false, 0, 7, TOutcome.netFail⟩]))])) = true
    ∧ download_directory 4 false true
        (some (some [RNode.file ⟨"a", some 2, false, 0, 2, TOutcome.success⟩,
          RNode.dir "Sub" (some (some [RNode.file ⟨"c", none, false, 0, 7, TOutcome.netFail⟩]))])) =
        Except.ok (1, 2)
    ∧ 2 = countFiles
        (some (some [RNode.file ⟨"a", some 2, false, 0, 2, TOutcome.success⟩,
          RNode.dir "Sub" (some (some [RNode.file ⟨"c", none, false, 0, 7, TOutcome.netFail⟩]))])) := by
  refine ⟨?h1, ?h2, ?_⟩
  case h1 => simp [listingsOk, listingsOkForest]
  case h2 =>
    simp [download_directory, download_subdirs, filesOf, fileRaises, fileOk,
      download_file, skips, should_skip_file]
  case _ =>
    exact total_count_is_file_count 4 false true _ 1 2
      (by simp [listingsOk, listingsOkForest])
      (by simp [download_directory, download_subdirs, filesOf, fileRaises, fileOk,
        download_file, skips, should_skip_file])

/-- C10: download_and_convert takes the single-file branch - one
download_file call, then a per-file PDF conversion exactly when the path
has the lowercased suffix .note - precisely when remote_path contains a
slash and does not end with one; every other remote_path (a bare file
name without a slash in particular) takes the directory branch,
download_directory followed by directory conversion. -/
theorem download_and_convert_branching :
    ∀ (p : List Char) (dl cf : Bool) (n : Nat),
      (p.contains '/' = true → List.isSuffixOf ['/'] p = false →
        (download_and_convert p dl cf n).2 =
          ConvAct.dlFile p ::
            (if dl && List.isSuffixOf ['.', 'n', 'o', 't', 'e'] (p.map Char.toLower)
              then [ConvAct.convFile p] else []))
      ∧ (p.contains '/' = false ∨ List.isSuffixOf ['/'] p = true →
          (download_and_convert p dl cf n).2 = [ConvAct.dlDir p, ConvAct.convDir p]) := by
  intro p dl cf n
  constructor
  · intro h1 h2
    unfold download_and_convert
    rw [h1, h2]
    cases dl <;>
      cases hnote : List.isSuffixOf ['.', 'n', 'o', 't', 'e'] (p.map Char.toLower) <;>
        simp [hnote]
  · intro h
    unfold download_and_convert
    rcases h with h | h
    · rw [h]
      simp
    · rw [h]
      simp

/-- C10 witness: Note/a.note takes the single-file branch with a
conversion, and the bare name stuff (no slash) takes the directory
branch. -/
theorem download_and_convert_branching_witness :
    ("Note/a.note".data.contains '/' = true
      ∧ List.isSuffixOf ['/'] "Note/a.note".data = false
      ∧ (download_and_convert "Note/a.note".data true true 0).2 =
          ConvAct.dlFile "Note/a.note".data ::
            (if true && List.isSuffixOf ['.', 'n', 'o', 't', 'e']
                ("Note/a.note".data.map Char.toLower)
              then [ConvAct.convFile "Note/a.note".data] else []))
    ∧ ("stuff".data.contains '/' = false
      ∧ (download_and_convert "stuff".data true true 0).2 =
          [ConvAct.dlDir "stuff".data, ConvAct.convDir "stuff".data]) := by
  refine ⟨⟨by decide, by decide, ?_⟩, ⟨by decide, ?_⟩⟩
  · exact (download_and_convert_branching "Note/a.note".data true true 0).1
      (by decide) (by decide)
  · exact (download_and_convert_branching "stuff".data true true 0).2
      (Or.inl (by decide))

/-- C1: on any tree with all listings present and every transfer
succeeding (no transfer or listing faults), the sync variant returns
normally with exactly the pair the async variant computes, for every
max_workers, max_concurrent and entry session state. -/
theorem sync_async_same_counts :
    ∀ (mw mc : Nat) (force cs : Bool) (l : Option (Option (List RNode)))
      (sess : SessState),
      listingsOk l = true →
      allFiles (fun f => f.outcome == TOutcome.success) l = true →
      download_directory mw force cs l =
        Except.ok ((download_directory_async true mc force cs l sess).1) := by
  intro mw mc force cs l sess hlist hsucc
  rw [download_directory_async_master]
  have hnr : allFiles (fun f => !fileRaises f force cs) l = true := by
    apply allFiles_imp _ _ _ l hsucc
    intro f hf
    rw [fileRaises_eq]
    rw [beq_iff_eq] at hf
    simp [hf]
  rw [download_directory_master mw force cs l hnr]
  have hfn : (fun f => fileOkAsync f force cs) = (fun f => fileOk f force cs) :=
    funext (fun f => fileOkAsync_eq_fileOk f force cs)
  rw [hfn]

/-- C1 witness: both variants yield (2, 2) on a concrete fault-free
two-level tree. -/
theorem sync_async_same_counts_witness :
    listingsOk (some (some [RNode.file ⟨"a", some 2, false, 0, 2, TOutcome.success⟩,
        RNode.dir "Sub" (some (some [RNode.file ⟨"c", none, false, 0, 7, TOutcome.success⟩]))])) = true
    ∧ allFiles (fun f => f.outcome == TOutcome.success)
        (some (some [RNode.file ⟨"a", some 2, false, 0, 2, TOutcome.success⟩,
          RNode.dir "Sub" (some (some [RNode.file ⟨"c", none, false, 0, 7, TOutcome.success⟩]))])) = true
    ∧ download_directory 4 false true
        (some (some [RNode.file ⟨"a", some 2, false, 0, 2, TOutcome.success⟩,
          RNode.dir "Sub" (some (some [RNode.file ⟨"c", none, false, 0, 7, TOutcome.success⟩]))])) =
        Except.ok ((download_directory_async true 20 false true
          (some (some [RNode.file ⟨"a", some 2, false, 0, 2, TOutcome.success⟩,
            RNode.dir "Sub" (some (some [RNode.file ⟨"c", none, false, 0, 7, TOutcome.success⟩]))]))
          SessState.noSession).1) := by
  refine ⟨?h1, ?h2, ?_⟩
  case h1 => simp [listingsOk, listingsOkForest]
  case h2 => simp [allFiles, allForest]
  case _ =>
    exact sync_async_same_counts 4 20 false true _ SessState.noSession
      (by simp [listingsOk, listingsOkForest])
      (by simp [allFiles, allForest])

/-- C9: with async dependencies available, the walk always exits with an
open session (on the missing-listing path and the partial-failure path
included); a session object is constructed exactly when the entry state
holds no open one - in particular a walk entered with an open session
constructs none, which is what every recursive call of a walk does - and
only an explicit close_async closes it, setting the attribute to None. -/
theorem session_lifecycle :
    ∀ (mc : Nat) (force cs : Bool) (l : Option (Option (List RNode)))
      (sess : SessState),
      (download_directory_async true mc force cs l sess).2.1 = SessState.openSession
      ∧ (download_directory_async true mc force cs l sess).2.2 =
          (if sess = SessState.openSession then 0 else 1)
      ∧ (download_directory_async true mc force cs l SessState.openSession).2.2 = 0
      ∧ close_async SessState.openSession = SessState.noSession
      ∧ close_async ((download_directory_async true mc force cs l sess).2.1) =
          SessState.noSession := by
  intro mc force cs l sess
  simp only [download_directory_async_master mc force cs l]
  cases sess <;> simp [ensure_session, close_async]

/-- C6: whatever the individual transfer outcomes, any pair either
variant returns satisfies successCount ≤ totalCount (this holds at every
recursive level, since the statement quantifies over every tree), and a
returned root pair is the component-wise sum of the contribution of the
file batch at the root level and of the pairs of its per-subdirectory
recursive calls. -/
theorem counts_invariant_and_decomposition :
    ∀ (mw mc : Nat) (force cs avail : Bool) (l : Option (Option (List RNode)))
      (sess : SessState),
      (∀ s t, download_directory mw force cs l = Except.ok (s, t) → s ≤ t)
      ∧ (download_directory_async avail mc force cs l sess).1.1 ≤
          (download_directory_async avail mc force cs l sess).1.2
      ∧ (∀ children s t,
          download_directory mw force cs (some (some children)) = Except.ok (s, t) →
          s = ((filesOf children).filter (fun f => fileOk f force cs)).length
              + ((dirListings children).map
                  (fun d => (okPair (download_directory mw force cs d)).1)).sum
          ∧ t = (filesOf children).length
              + ((dirListings children).map
                  (fun d => (okPair (download_directory mw force cs d)).2)).sum)
      ∧ (∀ children,
          (download_directory_async true mc force cs (some (some children)) sess).1 =
            (((filesOf children).filter (fun f => fileOkAsync f force cs)).length
              + ((dirListings children).map
                  (fun d => (download_directory_async true mc force cs d
                    SessState.openSession).1.1)).sum,
              (filesOf children).length
              + ((dirListings children).map
                  (fun d => (download_directory_async true mc force cs d
                    SessState.openSession).1.2)).sum)) := by
  intro mw mc force cs avail l sess
  refine ⟨?_, ?_, ?_, ?_⟩
  · intro s t hret
    by_cases hr : allFiles (fun f => !fileRaises f force cs) l = true
    · rw [download_directory_master mw force cs l hr] at hret
      simp only [Except.ok.injEq, Prod.mk.injEq] at hret
      rw [← hret.1, ← hret.2]
      exact countFilesP_le _ _ (fun f _ => rfl) l
    · rw [download_directory_err mw force cs l (Bool.eq_false_iff.mpr hr)] at hret
      exact absurd hret (by simp)
  · cases avail with
    | false =>
      rw [download_directory_async_unavail]
    | true =>
      rw [download_directory_async_master]
      exact countFilesP_le _ _ (fun f _ => rfl) l
  · intro children s t hret
    by_cases hr : allFiles (fun f => !fileRaises f force cs) (some (some children)) = true
    · have hforest : allForest (fun f => !fileRaises f force cs) children = true := by
        rw [allFiles] at hr
        exact hr
      rw [download_directory_master mw force cs _ hr] at hret
      simp only [Except.ok.injEq, Prod.mk.injEq] at hret
      have hsum := subSum_ok mw force cs children hforest
      constructor
      · rw [← hret.1]
        simp only [countFilesP]
        rw [countForestP_split, hsum.1]
      · rw [← hret.2]
        simp only [countFiles, countFilesP]
        rw [countForestP_split, hsum.2]
        congr 1
        simp
    · rw [download_directory_err mw force cs _ (Bool.eq_false_iff.mpr hr)] at hret
      exact absurd hret (by simp)
  · intro children
    rw [download_directory_async_master]
    have hfn : (fun d => (download_directory_async true mc force cs d
        SessState.openSession).1.1) = fun d => countFilesP (fun f => fileOkAsync f force cs) d := by
      funext d
      rw [download_directory_async_master]
    have hfn2 : (fun d => (download_directory_async true mc force cs d
        SessState.openSession).1.2) = fun d => countFiles d := by
      funext d
      rw [download_directory_async_master]
    rw [hfn, hfn2]
    simp only [countFiles, countFilesP]
    rw [countForestP_split, countForestP_split, subCountP_eq_sum, subCountP_eq_sum]
    simp

/-- C6 witness: on a concrete two-level tree the returned root pair is
(2, 2), 2 ≤ 2, and the success component decomposes into the root batch
plus the subdirectory contribution. -/
theorem counts_invariant_and_decomposition_witness :
    download_directory 4 false true
      (some (some [RNode.file ⟨"a", some 2, false, 0, 2, TOutcome.success⟩,
        RNode.dir "Sub" (some (some [RNode.file ⟨"c", none, false, 0, 7, TOutcome.success⟩]))])) =
      Except.ok (2, 2)
    ∧ (2 : Nat) ≤ 2
    ∧ 2 = ((filesOf [RNode.file ⟨"a", some 2, false, 0, 2, TOutcome.success⟩,
          RNode.dir "Sub" (some (some [RNode.file ⟨"c", none, false, 0, 7, TOutcome.success⟩]))]).filter
            (fun f => fileOk f false true)).length
        + ((dirListings [RNode.file ⟨"a", some 2, false, 0, 2, TOutcome.success⟩,
            RNode.dir "Sub" (some (some [RNode.file ⟨"c", none, false, 0, 7, TOutcome.success⟩]))]).map
              (fun d => (okPair (download_directory 4 false true d)).1)).sum := by
  have hdd : download_directory 4 false true
      (some (some [RNode.file ⟨"a", some 2, false, 0, 2, TOutcome.success⟩,
        RNode.dir "Sub" (some (some [RNode.file ⟨"c", none, false, 0, 7, TOutcome.success⟩]))])) =
      Except.ok (2, 2) := by
    simp [download_directory, download_subdirs, filesOf, fileRaises, fileOk,
      download_file, skips, should_skip_file]
  refine ⟨hdd, ?_, ?_⟩
  · exact (counts_invariant_and_decomposition 4 20 false true true
      (some (some [RNode.file ⟨"a", some 2, false, 0, 2, TOutcome.success⟩,
        RNode.dir "Sub" (some (some [RNode.file ⟨"c", none, false, 0, 7, TOutcome.success⟩]))]))
      SessState.noSession).1 2 2 hdd
  · exact ((counts_invariant_and_decomposition 4 20 false true true
      (some (some [RNode.file ⟨"a", some 2, false, 0, 2, TOutcome.success⟩,
        RNode.dir "Sub" (some (some [RNode.file ⟨"c", none, false, 0, 7, TOutcome.success⟩]))]))
      SessState.noSession).2.2.1
      [RNode.file ⟨"a", some 2, false, 0, 2, TOutcome.success⟩,
        RNode.dir "Sub" (some (some [RNode.file ⟨"c", none, false, 0, 7, TOutcome.success⟩]))]
      2 2 hdd).1

/-- C7: with checkSize on and force off, a run in which every reachable
file either already skips or transfers successfully (and whose listed
sizes match the bytes the device serves, the meaning of an unchanged
remote tree) returns successCount = totalCount; after the local-state
update that run performs, every file skips, so the second run performs
no transfer (the skip branch of download_file returns before any
network call) and returns the same all-success pair. -/
theorem second_run_all_skip :
    ∀ (mw : Nat) (l : Option (Option (List RNode))),
      allFiles (fun f => skips f false true || f.outcome == TOutcome.success) l = true →
      allFiles (fun f => match f.size with
        | some n => f.content == n
        | none => true) l = true →
      download_directory mw false true l = Except.ok (countFiles l, countFiles l)
      ∧ allFiles (fun f => skips f false true) (mapFiles (updateFile false true) l) = true
      ∧ download_directory mw false true (mapFiles (updateFile false true) l) =
          Except.ok (countFiles l, countFiles l) := by
  intro mw l h1 h2
  have hnr1 : allFiles (fun f => !fileRaises f false true) l = true := by
    apply allFiles_imp _ _ _ l h1
    intro f hf
    rw [fileRaises_eq]
    cases hsk : skips f false true with
    | true => simp [hsk]
    | false =>
      rw [hsk] at hf
      simp only [Bool.false_or, beq_iff_eq] at hf
      simp [hf]
  have hsucc1 : countFilesP (fun f => fileOk f false true) l = countFiles l := by
    apply countFilesP_eq_of_all _ _ _ l h1
    intro f hf
    rw [fileOk_eq]
    exact hf
  have hcomb := allFiles_and _ _ l h1 h2
  have hskip2 : allFiles (fun f => skips f false true)
      (mapFiles (updateFile false true) l) = true := by
    rw [allFiles_map]
    apply allFiles_imp _ _ _ l hcomb
    intro f hf
    rw [Bool.and_eq_true] at hf
    unfold updateFile
    cases hsk : skips f false true with
    | true => simp [hsk]
    | false =>
      rw [hsk] at hf
      have hout : f.outcome = TOutcome.success := by
        have := hf.1
        simp only [Bool.false_or, beq_iff_eq] at this
        exact this
      rw [hout]
      unfold skips should_skip_file
      simp only []
      cases hsize : f.size with
      | none => simp [hsize]
      | some n =>
        have := hf.2
        rw [hsize] at this
        rw [beq_iff_eq] at this
        simp [hsize, this]
  have hnr2 : allFiles (fun f => !fileRaises f false true)
      (mapFiles (updateFile false true) l) = true := by
    apply allFiles_imp _ _ _ _ hskip2
    intro f hf
    rw [fileRaises_eq]
    simp [hf]
  have hsucc2 : countFilesP (fun f => fileOk f false true)
      (mapFiles (updateFile false true) l) =
        countFiles (mapFiles (updateFile false true) l) := by
    apply countFilesP_eq_of_all (fun f => skips f false true) _ _ _ hskip2
    intro f hf
    rw [fileOk_eq, show skips f false true = true from hf]
    simp
  refine ⟨?_, hskip2, ?_⟩
  · rw [download_directory_master mw false true l hnr1, hsucc1]
  · rw [download_directory_master mw false true _ hnr2, hsucc2, countFiles_map]

/-- C7 witness: a fresh file of listed size 5 whose device content is 5
bytes transfers on the first run and skips on the second. -/
theorem second_run_all_skip_witness :
    allFiles (fun f => skips f false true || f.outcome == TOutcome.success)
      (some (some [RNode.file ⟨"a", some 5, false, 0, 5, TOutcome.success⟩])) = true
    ∧ allFiles (fun f => match f.size with | some n => f.content == n | none => true)
      (some (some [RNode.file ⟨"a", some 5, false, 0, 5, TOutcome.success⟩])) = true
    ∧ download_directory 4 false true
        (some (some [RNode.file ⟨"a", some 5, false, 0, 5, TOutcome.success⟩])) =
        Except.ok (1, 1)
    ∧ allFiles (fun f => skips f false true)
        (mapFiles (updateFile false true)
          (some (some [RNode.file ⟨"a", some 5, false, 0, 5, TOutcome.success⟩]))) = true := by
  have h1 : allFiles (fun f => skips f false true || f.outcome == TOutcome.success)
      (some (some [RNode.file ⟨"a", some 5, false, 0, 5, TOutcome.success⟩])) = true := by
    simp [allFiles, allForest]
  have h2 : allFiles (fun f => match f.size with | some n => f.content == n | none => true)
      (some (some [RNode.file ⟨"a", some 5, false, 0, 5, TOutcome.success⟩])) = true := by
    simp [allFiles, allForest]
  have hmain := second_run_all_skip 4 _ h1 h2
  have hcount : countFiles
      (some (some [RNode.file ⟨"a", some 5, false, 0, 5, TOutcome.success⟩])) = 1 := by
    simp [countFiles, countFilesP, countForestP]
  refine ⟨h1, h2, ?_, hmain.2.1⟩
  have := hmain.1
  rw [hcount] at this
  exact this

/-- C8: in the scheduler model of one download_directory_async batch -
each transfer task must acquire a permit of the shared
asyncio.Semaphore max_concurrent before its network fetch and the
async-with releases it afterward on every outcome - no reachable state
has more than k transfers in flight.  Subdirectory recursion is
sequential (each recursive call is awaited after the gather of the
level completes), so at most one batch is active at any time and the
bound covers the whole walk. -/
theorem semaphore_bound :
    ∀ (k n : Nat) (ts : List TaskPhase),
      SemReach k (List.replicate n TaskPhase.pending) ts →
      inFlightCount ts ≤ k := by
  intro k n ts hreach
  unfold SemReach at hreach
  induction hreach with
  | refl =>
    have h0 : inFlightCount (List.replicate n TaskPhase.pending) = 0 := by
      induction n with
      | zero => rfl
      | succ m ih =>
        rw [List.replicate_succ]
        have e1 : (TaskPhase.pending == TaskPhase.inFlight) = false := by decide
        have e2 : (TaskPhase.inFlight == TaskPhase.pending) = false := by decide
        simp [inFlightCount, List.count_cons, e1, e2] at ih ⊢
        exact ih
    rw [h0]
    exact Nat.zero_le k
  | tail hsteps hstep ih =>
    exact semStep_preserves k _ _ hstep ih

/-- C8 witness: with capacity 2 and three tasks, the state after one
start and one acquire is reachable and has one transfer in flight. -/
theorem semaphore_bound_witness :
    SemReach 2 (List.replicate 3 TaskPhase.pending)
      [TaskPhase.inFlight, TaskPhase.pending, TaskPhase.pending]
    ∧ inFlightCount [TaskPhase.inFlight, TaskPhase.pending, TaskPhase.pending] ≤ 2 := by
  have s1 : SemStep 2 [TaskPhase.pending, TaskPhase.pending, TaskPhase.pending]
      [TaskPhase.waiting, TaskPhase.pending, TaskPhase.pending] :=
    SemStep.start [] [TaskPhase.pending, TaskPhase.pending]
  have s2 : SemStep 2 [TaskPhase.waiting, TaskPhase.pending, TaskPhase.pending]
      [TaskPhase.inFlight, TaskPhase.pending, TaskPhase.pending] :=
    SemStep.acquire [] [TaskPhase.pending, TaskPhase.pending] (by decide)
  have hreach : SemReach 2 (List.replicate 3 TaskPhase.pending)
      [TaskPhase.inFlight, TaskPhase.pending, TaskPhase.pending] :=
    Relation.ReflTransGen.tail (Relation.ReflTransGen.tail Relation.ReflTransGen.refl s1) s2
  exact ⟨hreach, semaphore_bound 2 3 _ hreach⟩

end Supynote
